import Mathlib

/-!
Verification of the dynamic provider/model resolution engine of nano-zed,
shallowly embedded from src/crates/language_models/src/provider/open_ai_compatible.rs.

Strings are modelled with the Lean String type; the Rust byte-wise lexicographic
order on UTF-8 strings coincides with the codepoint-wise lexicographic order
implemented here by listLtB. Rust BTreeMap values are modelled as association
lists in ascending key order, Rust Vec as List, u64 as Nat (token counts never
approach overflow in this code), and fallible operations as Except. The stable
sort used by Rust slice sort_by is modelled by a structurally recursive stable
insertion sort, which agrees with every stable sort for a total preorder.
-/

namespace NanoZed

/-! ## Byte-lexicographic string order, as used by Rust Ord for String -/

/-- Lexicographic strict order on char lists by codepoint, matching the
byte-wise order Rust uses on UTF-8 string data. -/
def listLtB : List Char → List Char → Bool
  | [], [] => false
  | [], _ :: _ => true
  | _ :: _, [] => false
  | a :: as, b :: bs =>
    if a.toNat < b.toNat then true
    else if b.toNat < a.toNat then false
    else listLtB as bs

/-- Strict order on strings, as Rust String cmp returning Less. -/
def strLt (a b : String) : Bool := listLtB a.data b.data

/-- Reflexive order on strings, as Rust String cmp returning Less or Equal. -/
def strLe (a b : String) : Bool := !(strLt b a)

/-! ## Stable sort (model of Rust stable slice sort_by) and Vec dedup -/

/-- Insert an element in front of the first list member that it sorts
less-or-equal to. Used by the stable insertion sort. -/
def insertStable (le : α → α → Bool) (x : α) : List α → List α
  | [] => [x]
  | y :: ys => if le x y then x :: y :: ys else y :: insertStable le x ys

/-- Structurally recursive stable sort; for a total preorder it produces the
same output as the stable merge sort used by Rust sort_by. -/
def stableSort (le : α → α → Bool) : List α → List α
  | [] => []
  | x :: xs => insertStable le x (stableSort le xs)

/-- Remove adjacent duplicates, as Rust Vec dedup. -/
def dedupAdjacent : List String → List String
  | [] => []
  | [a] => [a]
  | a :: b :: rest =>
    if a = b then dedupAdjacent (b :: rest) else a :: dedupAdjacent (b :: rest)

/-- Insert into a strictly ascending list, skipping elements already present.
Used only by the claim-side description of the routing-option list. -/
def insertAscending (x : String) : List String → List String
  | [] => [x]
  | y :: ys =>
    if strLt x y then x :: y :: ys
    else if strLt y x then y :: insertAscending x ys
    else y :: ys

/-- Claim-side construction: the strictly ascending list of the distinct
members of the input. -/
def ascendingDistinct (l : List String) : List String := l.foldr insertAscending []

/-! ## Data model -/

/-- Capability flags of one catalog entry, as struct
settings::OpenAiCompatibleModelCapabilities used by the source. -/
structure ModelCapabilities where
  tools : Bool
  images : Bool
  parallel_tool_calls : Bool
  prompt_cache_key : Bool
  chat_completions : Bool
deriving DecidableEq

/-- The canonical catalog entry, as struct ResolvedModel in the source. -/
structure ResolvedModel where
  id : String
  request_model : String
  display_name : Option String
  max_tokens : Nat
  max_output_tokens : Option Nat
  max_completion_tokens : Option Nat
  capabilities : ModelCapabilities
  provider_override : Option String
deriving DecidableEq

/-- Modelled from the spec: settings::OpenAiCompatibleAvailableModel, the
statically configured model descriptor, is declared in the settings crate
outside the excerpted source; its fields are exactly the ones read by
ResolvedModel::from_available_model. -/
structure AvailableModel where
  name : String
  display_name : Option String
  max_tokens : Nat
  max_output_tokens : Option Nat
  max_completion_tokens : Option Nat
  capabilities : ModelCapabilities
deriving DecidableEq

/-- ResolvedModel::from_available_model. -/
def ResolvedModel.from_available_model (model : AvailableModel) : ResolvedModel :=
  { id := model.name
    request_model := model.name
    display_name := model.display_name
    max_tokens := model.max_tokens
    max_output_tokens := model.max_output_tokens
    max_completion_tokens := model.max_completion_tokens
    capabilities := model.capabilities
    provider_override := none }

/-- struct OpenAiCompatibleSettings. -/
structure OpenAiCompatibleSettings where
  api_url : String
  available_models : List AvailableModel
deriving DecidableEq

/-- The provider state object (struct State in the source), restricted to the
fields the embedded operations read. The external ApiKeyState is modelled at
its interface: apiKey is the key resolvable for the current base URL
(ApiKeyState::key), or none. The task handles carry no data relevant to the
catalog computations and are omitted. -/
structure State where
  id : String
  apiKey : Option String
  settings : OpenAiCompatibleSettings
  dynamicModels : List ResolvedModel
deriving DecidableEq

def NANOGPT_PROVIDER_ID : String := "nanogpt"
def NANOGPT_DEFAULT_MODEL_ID : String := "minimax/minimax-m2.5"
def NANOGPT_DEFAULT_MAX_INPUT_TOKENS : Nat := 200000

/-- State::is_nanogpt. -/
def State.is_nanogpt (st : State) : Bool := st.id == NANOGPT_PROVIDER_ID

/-- The dynamic-models part that State::resolved_models starts from: the
discovered list when the provider is nanogpt and that list is non-empty,
else the empty list. -/
def State.dynamicBase (st : State) : List ResolvedModel :=
  if st.is_nanogpt && !st.dynamicModels.isEmpty then st.dynamicModels else []

/-- The loop body of State::resolved_models: push the converted static model
unless its id is already present. -/
def resolvedMergeStep (models : List ResolvedModel) (model : AvailableModel) :
    List ResolvedModel :=
  let resolved_model := ResolvedModel.from_available_model model
  if models.any (fun existing => existing.id == resolved_model.id) then models
  else models ++ [resolved_model]

/-- State::resolved_models: start from the dynamic list, then append every
statically configured model whose id is not already in the list being built. -/
def State.resolved_models (st : State) : List ResolvedModel :=
  st.settings.available_models.foldl resolvedMergeStep st.dynamicBase

/-! ## Stage-1 discovery: the models-listing endpoint -/

/-- struct NanogptCatalogModel: one record of the models-listing response. -/
structure NanogptCatalogModel where
  model : Option String
  name : Option String
  visible : Option Bool
  max_input_tokens : Option Nat
  max_output_tokens : Option Nat
  capabilities : List String
deriving DecidableEq

/-- struct NanogptModelCollections: the text mapping of the response. The
Rust BTreeMap is modelled as its iteration sequence, an association list in
ascending key order with unique keys. -/
structure NanogptModelCollections where
  text : List (String × NanogptCatalogModel)
deriving DecidableEq

/-- struct NanogptModelsResponse. -/
structure NanogptModelsResponse where
  models : NanogptModelCollections
deriving DecidableEq

/-- Rust char::to_ascii_lowercase. -/
def toAsciiLowerChar (c : Char) : Char :=
  if 65 ≤ c.toNat ∧ c.toNat ≤ 90 then Char.ofNat (c.toNat + 32) else c

/-- Rust str::eq_ignore_ascii_case. -/
def eqIgnoreAsciiCase (a b : String) : Bool :=
  a.data.map toAsciiLowerChar == b.data.map toAsciiLowerChar

/-- fn nanogpt_capabilities. -/
def nanogpt_capabilities (capabilities : List String) : ModelCapabilities :=
  let has_capability := fun (capability : String) =>
    capabilities.any fun candidate => eqIgnoreAsciiCase candidate capability
  let tools := has_capability "tool-calling"
  { tools := tools
    images := has_capability "vision"
    parallel_tool_calls := tools
    prompt_cache_key := false
    chat_completions := true }

/-- The body of the per-record loop of fetch_nanogpt_models: build one
ResolvedModel from a mapping key and its catalog record. -/
def buildNanogptModel (key : String) (model : NanogptCatalogModel) : ResolvedModel :=
  let request_model := model.model.getD key
  let max_tokens :=
    (model.max_input_tokens.filter fun max => decide (0 < max)).getD
      NANOGPT_DEFAULT_MAX_INPUT_TOKENS
  let max_output_tokens := model.max_output_tokens.filter fun max => decide (0 < max)
  { id := request_model
    request_model := request_model
    display_name := model.name
    max_tokens := max_tokens
    max_output_tokens := max_output_tokens
    max_completion_tokens := max_output_tokens
    capabilities := nanogpt_capabilities model.capabilities
    provider_override := none }

/-- The record loop of fetch_nanogpt_models: records explicitly marked not
visible are dropped, the rest become ResolvedModels. -/
def buildNanogptModels (entries : List (String × NanogptCatalogModel)) : List ResolvedModel :=
  (entries.filter fun entry => !(entry.2.visible == some false)).map
    fun entry => buildNanogptModel entry.1 entry.2

/-- The sort key of the comparator of fetch_nanogpt_models: display name,
falling back to the upstream identifier. -/
def displayKey (model : ResolvedModel) : String :=
  model.display_name.getD model.request_model

/-- The comparator passed to sort_by in fetch_nanogpt_models. -/
def nanogptModelCmp (left right : ResolvedModel) : Ordering :=
  if left.request_model == NANOGPT_DEFAULT_MODEL_ID then .lt
  else if right.request_model == NANOGPT_DEFAULT_MODEL_ID then .gt
  else if strLt (displayKey left) (displayKey right) then .lt
  else if strLt (displayKey right) (displayKey left) then .gt
  else .eq

/-- The non-strict order induced by the comparator, used by the stable sort. -/
def nanogptModelLe (left right : ResolvedModel) : Bool :=
  !(nanogptModelCmp left right == .gt)

/-- The sort_by call of fetch_nanogpt_models. -/
def sortNanogptModels (models : List ResolvedModel) : List ResolvedModel :=
  stableSort nanogptModelLe models

/-- The pure part of fetch_nanogpt_models after a successfully parsed body:
build the records into ResolvedModels and sort them. -/
def nanogptModelsOfResponse (response : NanogptModelsResponse) : List ResolvedModel :=
  sortNanogptModels (buildNanogptModels response.models.text)

/-- One observed exchange with a discovery endpoint: either the transport
failed, or an HTTP status arrived together with the parse of the body
(none models a body that is not valid JSON for the expected shape). -/
inductive FetchOutcome (α : Type) where
  | transportError
  | httpResponse (status : Nat) (parsed : Option α)
deriving DecidableEq

/-- Rust StatusCode::is_success: the 2xx class. -/
def statusIsSuccess (status : Nat) : Bool := decide (200 ≤ status) && decide (status ≤ 299)

/-- fn fetch_nanogpt_models over an observed exchange: transport failure,
non-success status and malformed JSON all fail; a successfully parsed body
yields the built and sorted model list. The status check precedes parsing,
as in the source. -/
def fetch_nanogpt_models (outcome : FetchOutcome NanogptModelsResponse) :
    Except String (List ResolvedModel) :=
  match outcome with
  | .transportError => .error "transport failure"
  | .httpResponse status parsed =>
    if statusIsSuccess status then
      match parsed with
      | some response => .ok (nanogptModelsOfResponse response)
      | none => .error "malformed JSON"
    else .error "NanoGPT model listing request failed"

/-- State::fetch_dynamic_models as a state transformer over the observed
Stage-1 exchange: on failure the error propagates before the state update,
leaving dynamic_models untouched; on success the snapshot is replaced
wholesale (Stage 2 is then restarted with the same list, modelled by
fetchProviderSelectionStep below). -/
def fetchDynamicModelsStep (st : State) (outcome : FetchOutcome NanogptModelsResponse) :
    State × Except String Unit :=
  match fetch_nanogpt_models outcome with
  | .error e => (st, .error e)
  | .ok models => ({ st with dynamicModels := models }, .ok ())

/-! ## Stage-2 discovery: the routing-options endpoint -/

/-- struct NanogptProviderInfo. -/
structure NanogptProviderInfo where
  provider : String
  available : Bool
deriving DecidableEq

/-- struct NanogptProvidersResponse. -/
structure NanogptProvidersResponse where
  supports_provider_selection : Bool
  providers : List NanogptProviderInfo
deriving DecidableEq

/-- The pure part of fetch_nanogpt_model_providers after a successfully
parsed body: no provider selection support yields no options; otherwise the
available, non-empty provider names are collected, sorted and deduplicated. -/
def nanogptProvidersOfResponse (response : NanogptProvidersResponse) : List String :=
  if response.supports_provider_selection then
    dedupAdjacent (stableSort strLe (response.providers.filterMap fun info =>
      if info.available && !(info.provider == "") then some info.provider else none))
  else []

/-- fn fetch_nanogpt_model_providers over an observed exchange. -/
def fetch_nanogpt_model_providers (outcome : FetchOutcome NanogptProvidersResponse) :
    Except String (List String) :=
  match outcome with
  | .transportError => .error "transport failure"
  | .httpResponse status parsed =>
    if statusIsSuccess status then
      match parsed with
      | some response => .ok (nanogptProvidersOfResponse response)
      | none => .error "malformed JSON"
    else .error "NanoGPT provider listing request failed"

/-- The per-model arm of the Stage-2 fan-out of
State::fetch_provider_selection_models: a failed routing-options fetch is
logged and degraded to no options. -/
def providerOptionsOrEmpty (outcome : FetchOutcome NanogptProvidersResponse) : List String :=
  match fetch_nanogpt_model_providers outcome with
  | .ok providers => providers
  | .error _ => []

/-- The expanded catalog entry built in the Stage-2 loop for one base model
and one provider option. -/
def providerVariant (model : ResolvedModel) (provider : String) : ResolvedModel :=
  { id := model.request_model ++ "@" ++ provider
    request_model := model.request_model
    display_name := some ((model.display_name.getD model.request_model) ++ " via " ++ provider)
    max_tokens := model.max_tokens
    max_output_tokens := model.max_output_tokens
    max_completion_tokens := model.max_completion_tokens
    capabilities := model.capabilities
    provider_override := some provider }

/-- The accumulation loop of State::fetch_provider_selection_models over the
collected (model, providers) pairs: each base model is pushed, then one
variant per non-empty provider option. -/
def expandProviderOptions (pairs : List (ResolvedModel × List String)) : List ResolvedModel :=
  pairs.flatMap fun pair =>
    pair.1 :: (pair.2.filter fun provider => !(provider == "")).map (providerVariant pair.1)

/-- State::fetch_provider_selection_models as a state transformer. The
buffer_unordered(8) fan-out yields its (model, outcome) pairs in completion
order, so the collected list is a permutation of the submitted Stage-1 list
chosen by the scheduler; it is taken here as the argument. The task itself
always completes and publishes the expanded snapshot. -/
def fetchProviderSelectionStep (st : State)
    (arrival : List (ResolvedModel × FetchOutcome NanogptProvidersResponse)) :
    State × Except String Unit :=
  ({ st with dynamicModels :=
      expandProviderOptions (arrival.map fun pair => (pair.1, providerOptionsOrEmpty pair.2)) },
   .ok ())

/-! ## URL normalization and discovery URIs -/

/-- Rust str::trim_end_matches applied to the slash character. -/
def trimTrailingSlashes (s : String) : String :=
  String.mk ((s.data.reverse.dropWhile fun c => c == '/').reverse)

/-- fn nanogpt_api_base_url: trim all trailing slashes, then remove one
trailing /v1 segment when present. -/
def nanogpt_api_base_url (api_url : String) : String :=
  let trimmed := trimTrailingSlashes api_url
  if "/v1".data.isSuffixOf trimmed.data then
    String.mk (trimmed.data.take (trimmed.data.length - 3))
  else trimmed

/-- Rust urlencoding::encode unreserved set: ASCII alphanumeric and the four
marks dash, underscore, dot, tilde. -/
def isUrlUnreserved (c : Char) : Bool :=
  c.isAlphanum || c == '-' || c == '_' || c == '.' || c == '~'

/-- Upper-case hexadecimal digit of a value below 16. -/
def hexDigitUpper (n : Nat) : Char :=
  if n < 10 then Char.ofNat (48 + n) else Char.ofNat (55 + n)

/-- Percent-encode one byte. -/
def percentEncodeByte (b : UInt8) : List Char :=
  ['%', hexDigitUpper (b.toNat / 16), hexDigitUpper (b.toNat % 16)]

/-- Rust urlencoding::encode: unreserved characters pass through, every
other character is percent-encoded byte-wise over its UTF-8 encoding. -/
def urlEncode (s : String) : String :=
  String.mk (s.data.flatMap fun c =>
    if isUrlUnreserved c then [c]
    else (String.utf8EncodeChar c).flatMap percentEncodeByte)

/-- The Stage-1 request URI built by fetch_nanogpt_models. -/
def nanogptModelsUri (api_url : String) : String :=
  nanogpt_api_base_url api_url ++ "/models?detailed=true"

/-- The Stage-2 request URI built by fetch_nanogpt_model_providers. -/
def nanogptModelProvidersUri (api_url model_id : String) : String :=
  nanogpt_api_base_url api_url ++ "/models/" ++ urlEncode model_id ++ "/providers"

/-! ## Streaming gateway -/

/-- The error vocabulary relevant to the embedded dispatch paths. -/
inductive CompletionError where
  | noApiKey (provider : String)
  | other (message : String)
deriving DecidableEq

/-- Description of the upstream streaming HTTP call that
stream_completion_with_headers or stream_response_with_headers would issue;
producing this value is the embedded counterpart of issuing the request. -/
structure HttpDispatch where
  api_url : String
  api_key : String
  uses_chat_completions_protocol : Bool
  billing_mode : Option String
  additional_headers : List (String × String)
deriving DecidableEq

/-- The shared body of OpenAiCompatibleLanguageModel::stream_completion and
stream_response: read the current key and URL from the state, force paygo
billing and the two routing headers when a provider override is present,
and short-circuit with NoApiKey before any request when no key resolves.
The protocol is chosen by the chat_completions capability flag, as in
LanguageModel::stream_completion. -/
def streamCompletionDispatch (st : State) (model : ResolvedModel)
    (provider_name : String) : Except CompletionError HttpDispatch :=
  let billing_mode := if model.provider_override.isSome then some "paygo" else none
  let additional_headers :=
    match model.provider_override with
    | some provider => [("X-Provider", provider), ("X-Billing-Mode", "paygo")]
    | none => []
  match st.apiKey with
  | none => .error (.noApiKey provider_name)
  | some key =>
    .ok { api_url := st.settings.api_url
          api_key := key
          uses_chat_completions_protocol := model.capabilities.chat_completions
          billing_mode := billing_mode
          additional_headers := additional_headers }

/-! ## Rate limiter -/

/-- The slot count passed to RateLimiter::new in
OpenAiCompatibleLanguageModelProvider::create_language_model. -/
def requestLimiterSlots : Nat := 4

/-- Modelled from the spec: struct RateLimiter of the language_model crate is
not part of the excerpted source; per the spec it bounds concurrent in-flight
requests to a fixed slot count and queues excess dispatches until a slot
frees. State of one limiter: currently active dispatches and queued waiters. -/
structure RateLimiterState where
  active : Nat
  queued : Nat
deriving DecidableEq

/-- Events observed by one rate limiter: a new dispatch submitted through it,
or an in-flight dispatch finishing (stream dropped or exhausted). -/
inductive RateLimiterEvent where
  | dispatch
  | finish
deriving DecidableEq

/-- Modelled from the spec: one limiter transition. A dispatch takes a free
slot when fewer than requestLimiterSlots are active, otherwise it queues
instead of failing; a finishing dispatch hands its slot to a queued waiter
when one exists, otherwise frees it. -/
def rateLimiterStep (s : RateLimiterState) : RateLimiterEvent → RateLimiterState
  | .dispatch =>
    if s.active < requestLimiterSlots then { s with active := s.active + 1 }
    else { s with queued := s.queued + 1 }
  | .finish =>
    if 0 < s.queued then { s with queued := s.queued - 1 }
    else { s with active := s.active - 1 }

/-- A limiter run from the initial idle state. -/
def rateLimiterRun (events : List RateLimiterEvent) : RateLimiterState :=
  events.foldl rateLimiterStep { active := 0, queued := 0 }

/-! ## Claim-side definitions, following the wording of the specification -/

/-- Claim side of the catalog merge: append every statically configured
model whose id does not already occur earlier in the list being built. -/
def claimMergeStatics (acc : List ResolvedModel) : List AvailableModel → List ResolvedModel
  | [] => acc
  | model :: rest =>
    let resolved := ResolvedModel.from_available_model model
    if resolved.id ∈ acc.map (fun existing => existing.id) then claimMergeStatics acc rest
    else claimMergeStatics (acc ++ [resolved]) rest

/-- Claim side of State::resolved_models: the dynamic list when discovery is
in effect and non-empty, else empty, then the gap-filling static merge. -/
def claimMergedCatalog (st : State) : List ResolvedModel :=
  claimMergeStatics st.dynamicBase st.settings.available_models

/-- Claim side of the Stage-1 ordering: the entry whose upstream identifier
equals the designated default identifier sorts first; all others ascend
case-sensitively by display name, falling back to the upstream identifier. -/
def claimCatalogOrder (left right : ResolvedModel) : Prop :=
  left.request_model = NANOGPT_DEFAULT_MODEL_ID ∨
    (right.request_model ≠ NANOGPT_DEFAULT_MODEL_ID ∧
      strLe (displayKey left) (displayKey right) = true)

/-- Claim side of the routing options of one model: no options without
declared provider-selection support, otherwise the distinct available
non-empty option strings in ascending order. -/
def claimRoutingOptions (response : NanogptProvidersResponse) : List String :=
  if response.supports_provider_selection then
    ascendingDistinct (response.providers.filterMap fun info =>
      if info.available && !(info.provider == "") then some info.provider else none)
  else []

/-- Claim side of one expanded routing entry: id rewritten to
request_model at provider, display name rewritten to base display or id via
provider, provider_override set, all token and capability fields copied. -/
def claimProviderVariant (base : ResolvedModel) (provider : String) : ResolvedModel :=
  { id := base.request_model ++ "@" ++ provider
    request_model := base.request_model
    display_name := some ((base.display_name.getD base.id) ++ " via " ++ provider)
    max_tokens := base.max_tokens
    max_output_tokens := base.max_output_tokens
    max_completion_tokens := base.max_completion_tokens
    capabilities := base.capabilities
    provider_override := some provider }

/-- Claim side of the published Stage-2 catalog over (model, response)
pairs: per model its base entry first, then one entry per routing option. -/
def claimStage2Catalog (pairs : List (ResolvedModel × NanogptProvidersResponse)) :
    List ResolvedModel :=
  pairs.flatMap fun pair =>
    pair.1 :: (claimRoutingOptions pair.2).map (claimProviderVariant pair.1)

/-- A Stage-1 exchange that fails: transport failure, non-success HTTP
status, or a body that does not parse. -/
def isDiscoveryFailure {α : Type} : FetchOutcome α → Bool
  | .transportError => true
  | .httpResponse status parsed => !statusIsSuccess status || parsed.isNone

/-! ## Concrete inputs used by counterexamples and witnesses -/

/-- A catalog record with every optional field absent. -/
def emptyCatalogRecord : NanogptCatalogModel :=
  { model := none, name := none, visible := none
    max_input_tokens := none, max_output_tokens := none, capabilities := [] }

/-- The simplest discovered base entry with the given identifier. -/
def mkBaseResolved (name : String) : ResolvedModel :=
  { id := name
    request_model := name
    display_name := none
    max_tokens := NANOGPT_DEFAULT_MAX_INPUT_TOKENS
    max_output_tokens := none
    max_completion_tokens := none
    capabilities := nanogpt_capabilities []
    provider_override := none }

/-- A nanogpt provider state with a key, no static models and an empty
catalog. -/
def cBaseState : State :=
  { id := "nanogpt"
    apiKey := some "key"
    settings := { api_url := "https://nano-gpt.com/api/v1", available_models := [] }
    dynamicModels := [] }

/-- A nanogpt provider state whose catalog was populated by a prior
successful discovery cycle. -/
def cPopulatedState : State :=
  { cBaseState with dynamicModels := [mkBaseResolved "model-one"] }

/-- A nanogpt provider state with no resolvable key. -/
def cNoKeyState : State :=
  { cBaseState with apiKey := none }

/-- A discovery response in which the record keyed a declares upstream
identifier b while the record keyed b has no explicit identifier: both
resolve to id b. -/
def c1Response : NanogptModelsResponse :=
  { models := { text := [
      ("a", { emptyCatalogRecord with model := some "b" }),
      ("b", emptyCatalogRecord)] } }

/-- A routing response declaring no provider-selection support. -/
def noSelectionResponse : NanogptProvidersResponse :=
  { supports_provider_selection := false, providers := [] }

/-- The Stage-1 submission order of the Stage-2 counterexample: two base
models, each answered by a support-free routing response. -/
def c2Submission : List (ResolvedModel × FetchOutcome NanogptProvidersResponse) :=
  [(mkBaseResolved "model-one", .httpResponse 200 (some noSelectionResponse)),
   (mkBaseResolved "model-two", .httpResponse 200 (some noSelectionResponse))]

/-- A completion order of the same fan-out in which the second model answers
first. -/
def c2Arrival : List (ResolvedModel × FetchOutcome NanogptProvidersResponse) :=
  [(mkBaseResolved "model-two", .httpResponse 200 (some noSelectionResponse)),
   (mkBaseResolved "model-one", .httpResponse 200 (some noSelectionResponse))]

/-- The routing response of the specification example: options b and a
available, option c present but unavailable. -/
def cRoutingResponse : NanogptProvidersResponse :=
  { supports_provider_selection := true
    providers := [
      { provider := "b", available := true },
      { provider := "a", available := true },
      { provider := "c", available := false }] }

/-- The discovery response of the specification ordering example. -/
def c6Response : NanogptModelsResponse :=
  { models := { text := [
      ("a", { emptyCatalogRecord with name := some "Alpha" }),
      ("minimax/minimax-m2.5", { emptyCatalogRecord with name := some "Default Model" }),
      ("z", { emptyCatalogRecord with name := some "Zed" })] } }

/-- Stage-2 arrival segments around one failed per-model fetch. -/
def c8Before : List (ResolvedModel × FetchOutcome NanogptProvidersResponse) :=
  [(mkBaseResolved "model-one", .httpResponse 200 (some cRoutingResponse))]

/-- The models after the failed one in the Stage-2 arrival order. -/
def c8After : List (ResolvedModel × FetchOutcome NanogptProvidersResponse) :=
  [(mkBaseResolved "model-three", .httpResponse 200 (some cRoutingResponse))]

/-! ## Order theory of the embedded string comparison -/

theorem listLtB_nil_right : ∀ l : List Char, listLtB l [] = false
  | [] => rfl
  | _ :: _ => rfl

theorem listLtB_irrefl : ∀ l : List Char, listLtB l l = false
  | [] => rfl
  | a :: as => by simp [listLtB, listLtB_irrefl as]

theorem listLtB_asymm : ∀ l₁ l₂ : List Char, listLtB l₁ l₂ = true → listLtB l₂ l₁ = false
  | [], [], h => by simp [listLtB] at h
  | [], _ :: _, _ => rfl
  | _ :: _, [], h => by simp [listLtB] at h
  | a :: as, b :: bs, h => by
    simp only [listLtB] at h ⊢
    by_cases h1 : a.toNat < b.toNat
    · have h2 : ¬ b.toNat < a.toNat := by omega
      simp [h1, h2]
    · by_cases h2 : b.toNat < a.toNat
      · simp [h1, h2] at h
      · have h3 : listLtB as bs = true := by simpa [h1, h2] using h
        simp [h1, h2, listLtB_asymm as bs h3]

theorem listLtB_trans :
    ∀ l₁ l₂ l₃ : List Char, listLtB l₁ l₂ = true → listLtB l₂ l₃ = true → listLtB l₁ l₃ = true
  | [], l₂, [], _, h₂ => by rw [listLtB_nil_right] at h₂; exact absurd h₂ (by simp)
  | [], _, _ :: _, _, _ => rfl
  | _ :: _, [], _, h₁, _ => by simp [listLtB] at h₁
  | _ :: _, _ :: _, [], _, h₂ => by
    rw [listLtB_nil_right] at h₂; exact absurd h₂ (by simp)
  | a :: as, b :: bs, c :: cs, h₁, h₂ => by
    simp only [listLtB] at h₁ h₂ ⊢
    by_cases hab : a.toNat < b.toNat <;> by_cases hbc : b.toNat < c.toNat
    · have : a.toNat < c.toNat := by omega
      simp [this]
    · by_cases hcb : c.toNat < b.toNat
      · simp [hbc, hcb] at h₂
      · have : a.toNat < c.toNat := by omega
        simp [this]
    · by_cases hba : b.toNat < a.toNat
      · simp [hab, hba] at h₁
      · have : a.toNat < c.toNat := by omega
        simp [this]
    · by_cases hba : b.toNat < a.toNat
      · simp [hab, hba] at h₁
      · by_cases hcb : c.toNat < b.toNat
        · simp [hbc, hcb] at h₂
        · have h₁h : listLtB as bs = true := by simpa [hab, hba] using h₁
          have h₂h : listLtB bs cs = true := by simpa [hbc, hcb] using h₂
          have hac : ¬ a.toNat < c.toNat := by omega
          have hca : ¬ c.toNat < a.toNat := by omega
          simp [hac, hca, listLtB_trans as bs cs h₁h h₂h]

theorem listLtB_eq_of_not :
    ∀ l₁ l₂ : List Char, listLtB l₁ l₂ = false → listLtB l₂ l₁ = false → l₁ = l₂
  | [], [], _, _ => rfl
  | [], _ :: _, h₁, _ => by simp [listLtB] at h₁
  | _ :: _, [], _, h₂ => by simp [listLtB] at h₂
  | a :: as, b :: bs, h₁, h₂ => by
    simp only [listLtB] at h₁ h₂
    by_cases hab : a.toNat < b.toNat
    · simp [hab] at h₁
    · by_cases hba : b.toNat < a.toNat
      · simp [hba] at h₂
      · have h₁h : listLtB as bs = false := by simpa [hab, hba] using h₁
        have h₂h : listLtB bs as = false := by simpa [hab, hba] using h₂
        have hnat : a.toNat = b.toNat := by omega
        have hchar : a = b := Char.ext (UInt32.toNat.inj hnat)
        rw [hchar, listLtB_eq_of_not as bs h₁h h₂h]

theorem string_mk_data : ∀ s : String, String.mk s.data = s
  | .mk _ => rfl

theorem strLt_irrefl (s : String) : strLt s s = false := listLtB_irrefl s.data

theorem strLt_asymm {a b : String} (h : strLt a b = true) : strLt b a = false :=
  listLtB_asymm a.data b.data h

theorem strLt_trans {a b c : String} (h₁ : strLt a b = true) (h₂ : strLt b c = true) :
    strLt a c = true :=
  listLtB_trans a.data b.data c.data h₁ h₂

theorem strLt_eq_of_not {a b : String} (h₁ : strLt a b = false) (h₂ : strLt b a = false) :
    a = b := by
  have := listLtB_eq_of_not a.data b.data h₁ h₂
  rw [← string_mk_data a, ← string_mk_data b, this]

theorem strLe_total (a b : String) : strLe a b = true ∨ strLe b a = true := by
  by_cases h : strLt b a = true
  · right
    simp [strLe, strLt_asymm h]
  · left
    simp [strLe, Bool.not_eq_true] at h ⊢
    exact h

theorem strLe_trans {a b c : String} (h₁ : strLe a b = true) (h₂ : strLe b c = true) :
    strLe a c = true := by
  simp only [strLe, Bool.not_eq_true', Bool.not_eq_true] at h₁ h₂ ⊢
  by_cases hca : strLt c a = true
  · by_cases hcb : strLt c b = true
    · exact absurd h₂ (by simp [hcb])
    · by_cases hbc : strLt b c = true
      · exact absurd (strLt_trans hbc hca) (by simp [h₁])
      · have hbc2 : strLt b c = false := by simpa using hbc
        have hcb2 : strLt c b = false := by simpa using hcb
        have : b = c := strLt_eq_of_not hbc2 hcb2
        exact absurd (this ▸ hca) (by simp [h₁])
  · simpa using hca

theorem strLt_of_le_of_ne {a b : String} (h : strLe a b = true) (hne : a ≠ b) :
    strLt a b = true := by
  simp only [strLe, Bool.not_eq_true'] at h
  by_cases hab : strLt a b = true
  · exact hab
  · exact absurd (strLt_eq_of_not (by simpa using hab) h) hne

theorem strLe_of_lt {a b : String} (h : strLt a b = true) : strLe a b = true := by
  simp [strLe, strLt_asymm h]

/-! ## The stable sort, Vec dedup and the ascending-distinct construction -/

theorem perm_insertStable (le : α → α → Bool) (x : α) :
    ∀ l : List α, (insertStable le x l).Perm (x :: l)
  | [] => List.Perm.refl _
  | y :: ys => by
    simp only [insertStable]
    by_cases h : le x y = true
    · simp [h]
    · simp only [h]
      exact ((perm_insertStable le x ys).cons y).trans (List.Perm.swap x y ys)

theorem perm_stableSort (le : α → α → Bool) : ∀ l : List α, (stableSort le l).Perm l
  | [] => List.Perm.refl _
  | x :: xs =>
    (perm_insertStable le x (stableSort le xs)).trans ((perm_stableSort le xs).cons x)

theorem mem_insertStable (le : α → α → Bool) (x a : α) (l : List α) :
    a ∈ insertStable le x l ↔ a = x ∨ a ∈ l := by
  rw [(perm_insertStable le x l).mem_iff, List.mem_cons]

theorem pairwise_insertStable (le : α → α → Bool)
    (total : ∀ a b, le a b = true ∨ le b a = true)
    (htrans : ∀ a b c, le a b = true → le b c = true → le a c = true)
    (x : α) : ∀ l : List α, (l.Pairwise fun a b => le a b = true) →
      (insertStable le x l).Pairwise fun a b => le a b = true
  | [], _ => by simp [insertStable]
  | y :: ys, h => by
    rw [List.pairwise_cons] at h
    obtain ⟨hy, hys⟩ := h
    simp only [insertStable]
    by_cases hxy : le x y = true
    · rw [if_pos hxy, List.pairwise_cons]
      refine ⟨?_, by rw [List.pairwise_cons]; exact ⟨hy, hys⟩⟩
      intro z hz
      rcases List.mem_cons.mp hz with hz | hz
      · exact hz ▸ hxy
      · exact htrans x y z hxy (hy z hz)
    · rw [if_neg hxy, List.pairwise_cons]
      constructor
      · intro z hz
        rcases (mem_insertStable le x z ys).mp hz with hz | hz
        · rcases total x y with ht | ht
          · exact absurd ht hxy
          · exact hz ▸ ht
        · exact hy z hz
      · exact pairwise_insertStable le total htrans x ys hys

theorem pairwise_stableSort (le : α → α → Bool)
    (total : ∀ a b, le a b = true ∨ le b a = true)
    (htrans : ∀ a b c, le a b = true → le b c = true → le a c = true) :
    ∀ l : List α, (stableSort le l).Pairwise fun a b => le a b = true
  | [] => List.Pairwise.nil
  | x :: xs =>
    pairwise_insertStable le total htrans x (stableSort le xs)
      (pairwise_stableSort le total htrans xs)

theorem mem_dedupAdjacent : ∀ l : List String, ∀ a, a ∈ dedupAdjacent l ↔ a ∈ l
  | [], a => Iff.rfl
  | [b], a => Iff.rfl
  | b :: c :: rest, a => by
    simp only [dedupAdjacent]
    by_cases h : b = c
    · subst h
      rw [if_pos rfl, mem_dedupAdjacent (b :: rest) a]
      simp
    · rw [if_neg h]
      simp [mem_dedupAdjacent (c :: rest) a]

theorem pairwise_lt_dedupAdjacent :
    ∀ l : List String, (l.Pairwise fun a b => strLe a b = true) →
      (dedupAdjacent l).Pairwise fun a b => strLt a b = true
  | [], _ => List.Pairwise.nil
  | [a], _ => by simp [dedupAdjacent]
  | a :: b :: rest, h => by
    rw [List.pairwise_cons] at h
    obtain ⟨ha, hrest⟩ := h
    simp only [dedupAdjacent]
    by_cases hab : a = b
    · rw [if_pos hab]
      exact pairwise_lt_dedupAdjacent (b :: rest) hrest
    · rw [if_neg hab]
      rw [List.pairwise_cons]
      refine ⟨?_, pairwise_lt_dedupAdjacent (b :: rest) hrest⟩
      intro z hz
      have hzmem : z ∈ b :: rest := (mem_dedupAdjacent (b :: rest) z).mp hz
      have hle : strLe a z = true := ha z hzmem
      have hza : z ≠ a := by
        intro he
        rcases List.mem_cons.mp hzmem with hz1 | hz1
        · exact hab (he.symm.trans hz1)
        · rw [List.pairwise_cons] at hrest
          have h1 : strLe b z = true := hrest.1 z hz1
          rw [he] at h1
          have h2 : strLt a b = true :=
            strLt_of_le_of_ne (ha b (List.mem_cons_self b rest)) hab
          simp [strLe, h2] at h1
      exact strLt_of_le_of_ne hle (Ne.symm hza)

theorem mem_insertAscending :
    ∀ (x : String) (l : List String) (a : String), a ∈ insertAscending x l ↔ a = x ∨ a ∈ l
  | x, [], a => by simp [insertAscending]
  | x, y :: ys, a => by
    simp only [insertAscending]
    by_cases h1 : strLt x y = true
    · simp [h1]
    · rw [if_neg (by simpa using h1)]
      by_cases h2 : strLt y x = true
      · rw [if_pos h2]
        simp only [List.mem_cons, mem_insertAscending x ys a]
        tauto
      · rw [if_neg (by simpa using h2)]
        have : x = y :=
          strLt_eq_of_not (by simpa using h1) (by simpa using h2)
        subst this
        simp only [List.mem_cons]
        tauto

theorem pairwise_insertAscending :
    ∀ (x : String) (l : List String), (l.Pairwise fun a b => strLt a b = true) →
      (insertAscending x l).Pairwise fun a b => strLt a b = true
  | x, [], _ => by simp [insertAscending]
  | x, y :: ys, h => by
    rw [List.pairwise_cons] at h
    obtain ⟨hy, hys⟩ := h
    simp only [insertAscending]
    by_cases h1 : strLt x y = true
    · rw [if_pos h1, List.pairwise_cons]
      refine ⟨?_, by rw [List.pairwise_cons]; exact ⟨hy, hys⟩⟩
      intro z hz
      rcases List.mem_cons.mp hz with hz | hz
      · exact hz ▸ h1
      · exact strLt_trans h1 (hy z hz)
    · rw [if_neg (by simpa using h1)]
      by_cases h2 : strLt y x = true
      · rw [if_pos h2, List.pairwise_cons]
        constructor
        · intro z hz
          rcases (mem_insertAscending x ys z).mp hz with hz | hz
          · exact hz ▸ h2
          · exact hy z hz
        · exact pairwise_insertAscending x ys hys
      · rw [if_neg (by simpa using h2), List.pairwise_cons]
        exact ⟨hy, hys⟩

theorem pairwise_ascendingDistinct (l : List String) :
    (ascendingDistinct l).Pairwise fun a b => strLt a b = true := by
  induction l with
  | nil => exact List.Pairwise.nil
  | cons x xs ih => exact pairwise_insertAscending x (ascendingDistinct xs) ih

theorem mem_ascendingDistinct (l : List String) (a : String) :
    a ∈ ascendingDistinct l ↔ a ∈ l := by
  induction l with
  | nil => simp [ascendingDistinct]
  | cons x xs ih =>
    show a ∈ insertAscending x (ascendingDistinct xs) ↔ _
    rw [mem_insertAscending x (ascendingDistinct xs) a, ih]
    simp

theorem eq_of_pairwise_lt_of_mem_iff :
    ∀ l₁ l₂ : List String, (l₁.Pairwise fun a b => strLt a b = true) →
      (l₂.Pairwise fun a b => strLt a b = true) → (∀ a, a ∈ l₁ ↔ a ∈ l₂) → l₁ = l₂
  | [], [], _, _, _ => rfl
  | [], b :: bs, _, _, hm => by
    have := (hm b).mpr (List.mem_cons_self b bs)
    simp at this
  | a :: as, [], _, _, hm => by
    have := (hm a).mp (List.mem_cons_self a as)
    simp at this
  | a :: as, b :: bs, h₁, h₂, hm => by
    rw [List.pairwise_cons] at h₁ h₂
    have hab : a = b := by
      rcases List.mem_cons.mp ((hm a).mp (List.mem_cons_self a as)) with h | hamem
      · exact h
      · rcases List.mem_cons.mp ((hm b).mpr (List.mem_cons_self b bs)) with h | hbmem
        · exact h.symm
        · have hlba : strLt b a = true := h₂.1 a hamem
          have hlab : strLt a b = true := h₁.1 b hbmem
          exact absurd hlba (by simp [strLt_asymm hlab])
    subst hab
    have htails : ∀ z, z ∈ as ↔ z ∈ bs := by
      intro z
      constructor
      · intro hz
        have hlt : strLt a z = true := h₁.1 z hz
        rcases List.mem_cons.mp ((hm z).mp (List.mem_cons_of_mem a hz)) with h | h
        · subst h
          exact absurd hlt (by simp [strLt_irrefl])
        · exact h
      · intro hz
        have hlt : strLt a z = true := h₂.1 z hz
        rcases List.mem_cons.mp ((hm z).mpr (List.mem_cons_of_mem a hz)) with h | h
        · subst h
          exact absurd hlt (by simp [strLt_irrefl])
        · exact h
    rw [eq_of_pairwise_lt_of_mem_iff as bs h₁.2 h₂.2 htails]

/-! ## Routing options: the source pipeline equals the claim description -/

theorem strLe_trans_rule (a b c : String) (h₁ : strLe a b = true) (h₂ : strLe b c = true) :
    strLe a c = true := strLe_trans h₁ h₂

theorem providersOptions_eq_claim (response : NanogptProvidersResponse) :
    nanogptProvidersOfResponse response = claimRoutingOptions response := by
  unfold nanogptProvidersOfResponse claimRoutingOptions
  by_cases hsup : response.supports_provider_selection = true
  · rw [if_pos hsup, if_pos hsup]
    apply eq_of_pairwise_lt_of_mem_iff
    · exact pairwise_lt_dedupAdjacent _
        (pairwise_stableSort strLe strLe_total strLe_trans_rule _)
    · exact pairwise_ascendingDistinct _
    · intro a
      rw [mem_dedupAdjacent, (perm_stableSort strLe _).mem_iff, mem_ascendingDistinct]
  · rw [if_neg hsup, if_neg hsup]

theorem mem_providersOptions_not_empty (response : NanogptProvidersResponse) (p : String)
    (hp : p ∈ nanogptProvidersOfResponse response) : (p == "") = false := by
  unfold nanogptProvidersOfResponse at hp
  by_cases hsup : response.supports_provider_selection = true
  · rw [if_pos hsup, mem_dedupAdjacent, (perm_stableSort strLe _).mem_iff] at hp
    obtain ⟨info, _, hf⟩ := List.mem_filterMap.mp hp
    by_cases hc : (info.available && !(info.provider == "")) = true
    · rw [if_pos hc] at hf
      obtain ⟨_, hne⟩ := Bool.and_eq_true_iff.mp hc
      have : info.provider = p := Option.some.inj hf
      rw [← this]
      simpa using hne
    · rw [if_neg hc] at hf
      exact absurd hf (by simp)
  · rw [if_neg hsup] at hp
    exact absurd hp (by simp)

theorem providerOptionsOrEmpty_success (response : NanogptProvidersResponse) :
    providerOptionsOrEmpty (.httpResponse 200 (some response)) =
      nanogptProvidersOfResponse response := rfl

theorem expand_eq_claimStage2 :
    ∀ pairs : List (ResolvedModel × NanogptProvidersResponse),
      (∀ pair ∈ pairs, pair.1.id = pair.1.request_model) →
      expandProviderOptions
          (pairs.map fun pair => (pair.1, nanogptProvidersOfResponse pair.2)) =
        claimStage2Catalog pairs
  | [], _ => rfl
  | pair :: rest, hid => by
    simp only [List.map_cons, expandProviderOptions, List.flatMap_cons, claimStage2Catalog]
    have htail := expand_eq_claimStage2 rest
      (fun q hq => hid q (List.mem_cons_of_mem _ hq))
    simp only [expandProviderOptions, claimStage2Catalog] at htail
    rw [htail]
    have hfil : ((nanogptProvidersOfResponse pair.2).filter fun p => !(p == "")) =
        nanogptProvidersOfResponse pair.2 :=
      List.filter_eq_self.mpr fun p hp => by
        simp [mem_providersOptions_not_empty pair.2 p hp]
    rw [hfil, providersOptions_eq_claim]
    have hvar : providerVariant pair.1 = claimProviderVariant pair.1 := by
      funext provider
      have hpid : pair.1.id = pair.1.request_model := hid pair (List.mem_cons_self pair rest)
      simp [providerVariant, claimProviderVariant, hpid]
    rw [hvar]

/-! ## Catalog merge: the source fold equals the claim description -/

theorem resolvedMergeStep_mem_iff (acc : List ResolvedModel) (rid : String) :
    (acc.any fun existing => existing.id == rid) = true ↔
      rid ∈ acc.map fun existing => existing.id := by
  rw [List.any_eq_true, List.mem_map]
  constructor
  · rintro ⟨x, hx, he⟩
    exact ⟨x, hx, by simpa using he⟩
  · rintro ⟨x, hx, he⟩
    exact ⟨x, hx, by simp [he]⟩

theorem foldl_merge_eq_claim :
    ∀ (l : List AvailableModel) (acc : List ResolvedModel),
      l.foldl resolvedMergeStep acc = claimMergeStatics acc l
  | [], _ => rfl
  | model :: rest, acc => by
    rw [List.foldl_cons]
    show List.foldl resolvedMergeStep (resolvedMergeStep acc model) rest = _
    simp only [claimMergeStatics, resolvedMergeStep]
    by_cases hc : (ResolvedModel.from_available_model model).id ∈
        acc.map fun existing => existing.id
    · rw [if_pos ((resolvedMergeStep_mem_iff acc _).mpr hc), if_pos hc]
      exact foldl_merge_eq_claim rest acc
    · rw [if_neg (fun h => hc ((resolvedMergeStep_mem_iff acc _).mp h)), if_neg hc]
      exact foldl_merge_eq_claim rest _

theorem claimMergeStatics_split :
    ∀ (l : List AvailableModel) (acc : List ResolvedModel),
      ∃ tail, claimMergeStatics acc l = acc ++ tail ∧
        ∀ r ∈ tail, r.id ∉ acc.map fun existing => existing.id
  | [], acc => ⟨[], by simp [claimMergeStatics]⟩
  | model :: rest, acc => by
    simp only [claimMergeStatics]
    by_cases hc : (ResolvedModel.from_available_model model).id ∈
        acc.map fun existing => existing.id
    · rw [if_pos hc]
      exact claimMergeStatics_split rest acc
    · rw [if_neg hc]
      obtain ⟨tail, heq, hprop⟩ :=
        claimMergeStatics_split rest (acc ++ [ResolvedModel.from_available_model model])
      refine ⟨ResolvedModel.from_available_model model :: tail, ?_, ?_⟩
      · rw [heq]
        simp
      · intro r hr
        rcases List.mem_cons.mp hr with hr | hr
        · rw [hr]
          exact hc
        · intro hmem
          exact hprop r hr (by rw [List.map_append]; exact List.mem_append_left _ hmem)

theorem nodup_foldl_merge :
    ∀ (l : List AvailableModel) (acc : List ResolvedModel),
      ((acc.map fun m => m.id).Nodup) →
      (((l.foldl resolvedMergeStep acc).map fun m => m.id).Nodup)
  | [], _, h => h
  | model :: rest, acc, h => by
    rw [List.foldl_cons]
    apply nodup_foldl_merge rest
    simp only [resolvedMergeStep]
    by_cases hc : (acc.any fun existing =>
        existing.id == (ResolvedModel.from_available_model model).id) = true
    · rw [if_pos hc]
      exact h
    · rw [if_neg hc]
      rw [List.map_append, List.nodup_append]
      refine ⟨h, by simp, ?_⟩
      intro a ha hb
      simp only [List.map_cons, List.map_nil, List.mem_singleton] at hb
      rw [hb] at ha
      exact hc ((resolvedMergeStep_mem_iff acc _).mpr ha)

/-! ## Stage-1 ordering: the comparator induces the claim order -/

theorem nanogptModelLe_iff (left right : ResolvedModel) :
    nanogptModelLe left right = true ↔ claimCatalogOrder left right := by
  have e1 : (Ordering.lt == Ordering.gt) = false := rfl
  have e2 : (Ordering.gt == Ordering.gt) = true := rfl
  have e3 : (Ordering.eq == Ordering.gt) = false := rfl
  unfold nanogptModelLe nanogptModelCmp claimCatalogOrder
  by_cases hl : left.request_model = NANOGPT_DEFAULT_MODEL_ID
  · simp [hl, e1]
  · by_cases hr : right.request_model = NANOGPT_DEFAULT_MODEL_ID
    · simp [hl, hr, e2]
    · by_cases h1 : strLt (displayKey left) (displayKey right) = true
      · simp [hl, hr, h1, e1, strLe, strLt_asymm h1]
      · by_cases h2 : strLt (displayKey right) (displayKey left) = true
        · simp [hl, hr, h1, h2, e2, strLe]
        · simp [hl, hr, h1, h2, e3, strLe]

theorem nanogptModelLe_total (a b : ResolvedModel) :
    nanogptModelLe a b = true ∨ nanogptModelLe b a = true := by
  rw [nanogptModelLe_iff, nanogptModelLe_iff]
  unfold claimCatalogOrder
  by_cases ha : a.request_model = NANOGPT_DEFAULT_MODEL_ID
  · exact Or.inl (Or.inl ha)
  · by_cases hb : b.request_model = NANOGPT_DEFAULT_MODEL_ID
    · exact Or.inr (Or.inl hb)
    · rcases strLe_total (displayKey a) (displayKey b) with h | h
      · exact Or.inl (Or.inr ⟨hb, h⟩)
      · exact Or.inr (Or.inr ⟨ha, h⟩)

theorem nanogptModelLe_trans (a b c : ResolvedModel)
    (h₁ : nanogptModelLe a b = true) (h₂ : nanogptModelLe b c = true) :
    nanogptModelLe a c = true := by
  rw [nanogptModelLe_iff] at h₁ h₂ ⊢
  unfold claimCatalogOrder at h₁ h₂ ⊢
  rcases h₁ with h₁ | ⟨hb, hab⟩
  · exact Or.inl h₁
  · rcases h₂ with h₂ | ⟨hc, hbc⟩
    · exact absurd h₂ hb
    · exact Or.inr ⟨hc, strLe_trans hab hbc⟩

/-! ## Stage-1 failure analysis -/

theorem fetch_nanogpt_models_error (outcome : FetchOutcome NanogptModelsResponse)
    (h : isDiscoveryFailure outcome = true) :
    ∃ e, fetch_nanogpt_models outcome = .error e := by
  cases outcome with
  | transportError => exact ⟨"transport failure", rfl⟩
  | httpResponse status parsed =>
    simp only [isDiscoveryFailure, Bool.or_eq_true, Bool.not_eq_true'] at h
    rcases h with h | h
    · exact ⟨"NanoGPT model listing request failed", by simp [fetch_nanogpt_models, h]⟩
    · cases parsed with
      | some r => simp [Option.isNone] at h
      | none =>
        by_cases hs : statusIsSuccess status = true
        · exact ⟨"malformed JSON", by simp [fetch_nanogpt_models, hs]⟩
        · exact ⟨"NanoGPT model listing request failed",
            by simp [fetch_nanogpt_models, hs]⟩

/-! ## Rate limiter invariant -/

theorem limiter_foldl_bound :
    ∀ (events : List RateLimiterEvent) (s : RateLimiterState),
      s.active ≤ requestLimiterSlots →
      (events.foldl rateLimiterStep s).active ≤ requestLimiterSlots
  | [], _, h => h
  | e :: rest, s, h => by
    rw [List.foldl_cons]
    apply limiter_foldl_bound rest
    cases e with
    | dispatch =>
      simp only [rateLimiterStep]
      by_cases hc : s.active < requestLimiterSlots
      · rw [if_pos hc]
        exact hc
      · rw [if_neg hc]
        exact h
    | finish =>
      simp only [rateLimiterStep]
      by_cases hc : 0 < s.queued
      · rw [if_pos hc]
        exact h
      · rw [if_neg hc]
        simp only []
        omega

/-! ## URL normalization lemmas -/

theorem trimTrailingSlashes_append_slash (u : String) :
    trimTrailingSlashes (u ++ "/") = trimTrailingSlashes u := by
  unfold trimTrailingSlashes
  rw [String.data_append]
  have : (u.data ++ "/".data).reverse = '/' :: u.data.reverse := by simp
  rw [this]
  rfl

theorem trimTrailingSlashes_of_no_slash (u : String) (h : u.data.getLast? ≠ some '/') :
    trimTrailingSlashes u = u := by
  unfold trimTrailingSlashes
  cases hrev : u.data.reverse with
  | nil =>
    have : u.data = [] := by simpa using congrArg List.reverse hrev
    rw [List.dropWhile_nil, List.reverse_nil, ← this, string_mk_data]
  | cons c rest =>
    have hc : c ≠ '/' := by
      intro he
      apply h
      rw [← List.head?_reverse, hrev, he]
      rfl
    have hcb : (c == '/') = false := by simpa using hc
    rw [List.dropWhile_cons, hcb, if_neg Bool.false_ne_true, ← hrev,
      List.reverse_reverse]

theorem data_append_v1 (u : String) : (u ++ "/v1").data = u.data ++ ['/', 'v', '1'] := by
  rw [String.data_append]

theorem trimTrailingSlashes_append_v1 (u : String) :
    trimTrailingSlashes (u ++ "/v1") = u ++ "/v1" := by
  apply trimTrailingSlashes_of_no_slash
  rw [data_append_v1, ← List.head?_reverse]
  simp

theorem base_url_eval (s : String) : nanogpt_api_base_url s =
    if List.isSuffixOf "/v1".data (trimTrailingSlashes s).data = true then
      String.mk ((trimTrailingSlashes s).data.take ((trimTrailingSlashes s).data.length - 3))
    else trimTrailingSlashes s := rfl

theorem base_url_of_plain (u : String) (h1 : u.data.getLast? ≠ some '/')
    (h2 : List.isSuffixOf "/v1".data u.data = false) :
    nanogpt_api_base_url u = u := by
  rw [base_url_eval, trimTrailingSlashes_of_no_slash u h1, h2,
    if_neg Bool.false_ne_true]

theorem base_url_append_slash (u : String) (h1 : u.data.getLast? ≠ some '/')
    (h2 : List.isSuffixOf "/v1".data u.data = false) :
    nanogpt_api_base_url (u ++ "/") = u := by
  rw [base_url_eval, trimTrailingSlashes_append_slash,
    trimTrailingSlashes_of_no_slash u h1, h2, if_neg Bool.false_ne_true]

theorem base_url_append_v1 (u : String) :
    nanogpt_api_base_url (u ++ "/v1") = u := by
  have hs : List.isSuffixOf "/v1".data (u ++ "/v1").data = true := by
    rw [List.isSuffixOf_iff_suffix, data_append_v1]
    exact List.suffix_append u.data ['/', 'v', '1']
  rw [base_url_eval, trimTrailingSlashes_append_v1, hs, if_pos rfl, data_append_v1]
  have hlen : (u.data ++ ['/', 'v', '1']).length - 3 = u.data.length := by
    simp
  rw [hlen, List.take_left]

/-! ## Claim theorems -/

/-- C1, counterexample: resolved_models can return duplicate ids. A Stage-1
discovery response in which the record keyed a declares the explicit upstream
identifier b while the record keyed b declares none yields two discovered
entries with id b, and the merge does not deduplicate discovered entries, so
the catalog snapshot returned by resolved_models has a repeated id. -/
theorem duplicate_ids_after_alias_discovery :
    (fetchDynamicModelsStep cBaseState (.httpResponse 200 (some c1Response))).2 =
      Except.ok () ∧
    ¬ (((fetchDynamicModelsStep cBaseState
        (.httpResponse 200 (some c1Response))).1.resolved_models.map
          fun m => m.id).Nodup) :=
  ⟨rfl, by decide⟩

/-- C1, amended: in every catalog snapshot returned by resolved_models the
ids are pairwise distinct provided the discovered dynamic-models list itself
has pairwise-distinct ids; the static merge step never introduces a
duplicate id. -/
theorem resolved_models_ids_nodup_of_dynamic_nodup (st : State)
    (h : (st.dynamicModels.map fun m => m.id).Nodup) :
    ((st.resolved_models).map fun m => m.id).Nodup := by
  have hbase : ((st.dynamicBase).map fun m => m.id).Nodup := by
    unfold State.dynamicBase
    split
    · exact h
    · simp
  unfold State.resolved_models
  exact nodup_foldl_merge _ _ hbase

/-- C1, witness for the amended theorem at a populated nanogpt state. -/
theorem resolved_models_ids_nodup_witness :
    ((cPopulatedState.dynamicModels.map fun m => m.id).Nodup) ∧
    ((cPopulatedState.resolved_models.map fun m => m.id).Nodup) :=
  ⟨by decide, resolved_models_ids_nodup_of_dynamic_nodup cPopulatedState (by decide)⟩

/-- C2, counterexample: the Stage-2 fan-out collects its per-model results
with buffer_unordered, in completion order, and the published list is not
re-sorted into Stage-1 order; a completed fan-out whose second model answers
first publishes the blocks in the swapped order, not the Stage-1 order the
claim requires. -/
theorem stage2_order_depends_on_completion_order :
    c2Arrival.Perm c2Submission ∧
    (fetchProviderSelectionStep cBaseState c2Arrival).2 = Except.ok () ∧
    (fetchProviderSelectionStep cBaseState c2Arrival).1.dynamicModels ≠
      claimStage2Catalog
        [(mkBaseResolved "model-one", noSelectionResponse),
         (mkBaseResolved "model-two", noSelectionResponse)] :=
  ⟨by decide, rfl, by decide⟩

/-- C2, amended: after a completed Stage-2 fan-out the published list is
exactly, for each Stage-1 model taken in the completion order of the fan-out
(a permutation of the Stage-1 list), the base entry first and then one entry
per distinct available non-empty routing option in ascending sorted order,
with the id, display-name, provider_override and copied fields the claim
states, and zero variants without declared provider-selection support. -/
theorem stage2_publishes_blocks_in_completion_order (st : State)
    (submission arrival : List (ResolvedModel × NanogptProvidersResponse))
    (_hperm : arrival.Perm submission)
    (hid : ∀ pair ∈ arrival, pair.1.id = pair.1.request_model) :
    (fetchProviderSelectionStep st (arrival.map fun pair =>
        (pair.1, FetchOutcome.httpResponse 200 (some pair.2)))).2 = Except.ok () ∧
    (fetchProviderSelectionStep st (arrival.map fun pair =>
        (pair.1, FetchOutcome.httpResponse 200 (some pair.2)))).1.dynamicModels =
      claimStage2Catalog arrival := by
  refine ⟨rfl, ?_⟩
  show expandProviderOptions ((arrival.map fun pair =>
      (pair.1, FetchOutcome.httpResponse 200 (some pair.2))).map
        fun pair => (pair.1, providerOptionsOrEmpty pair.2)) = _
  rw [List.map_map]
  show expandProviderOptions (arrival.map fun pair =>
      (pair.1, nanogptProvidersOfResponse pair.2)) = _
  exact expand_eq_claimStage2 arrival hid

/-- C2, witness for the amended theorem: one Stage-1 model with routing
options b and a available and c unavailable expands to base, id at a, id at
b. -/
theorem stage2_publishes_blocks_witness :
    (fetchProviderSelectionStep cBaseState
        ([(mkBaseResolved "model-one", cRoutingResponse)].map fun pair =>
          (pair.1, FetchOutcome.httpResponse 200 (some pair.2)))).2 = Except.ok () ∧
    (fetchProviderSelectionStep cBaseState
        ([(mkBaseResolved "model-one", cRoutingResponse)].map fun pair =>
          (pair.1, FetchOutcome.httpResponse 200 (some pair.2)))).1.dynamicModels =
      claimStage2Catalog [(mkBaseResolved "model-one", cRoutingResponse)] :=
  stage2_publishes_blocks_in_completion_order cBaseState
    [(mkBaseResolved "model-one", cRoutingResponse)]
    [(mkBaseResolved "model-one", cRoutingResponse)]
    (List.Perm.refl _) (by decide)

/-- C3: resolved_models equals the claim-side merge (dynamic list when
discovery is in effect and non-empty, else empty, then each static model in
configuration order whose id does not already occur in the list being
built), and the entries appended after the dynamic part never carry an id of
a discovered entry, so static entries never override discovered ones. -/
theorem resolved_models_eq_claim_merge (st : State) :
    st.resolved_models = claimMergedCatalog st ∧
    ∃ tail, st.resolved_models = st.dynamicBase ++ tail ∧
      ∀ r ∈ tail, r.id ∉ st.dynamicBase.map fun existing => existing.id := by
  have heq : st.resolved_models = claimMergedCatalog st :=
    foldl_merge_eq_claim st.settings.available_models st.dynamicBase
  refine ⟨heq, ?_⟩
  rw [heq]
  exact claimMergeStatics_split st.settings.available_models st.dynamicBase

/-- C3, witness at a concrete state. -/
theorem resolved_models_eq_claim_merge_witness :
    cPopulatedState.resolved_models = claimMergedCatalog cPopulatedState :=
  (resolved_models_eq_claim_merge cPopulatedState).1

/-- C4: when the Stage-1 fetch fails (transport failure, non-success HTTP
status, or malformed JSON) the discovery step completes with an error and
leaves the whole state, in particular the previously stored dynamic-models
snapshot, unchanged. -/
theorem stage1_failure_preserves_snapshot (st : State)
    (outcome : FetchOutcome NanogptModelsResponse)
    (h : isDiscoveryFailure outcome = true) :
    (fetchDynamicModelsStep st outcome).1 = st ∧
    (fetchDynamicModelsStep st outcome).1.dynamicModels = st.dynamicModels ∧
    ∃ e, (fetchDynamicModelsStep st outcome).2 = Except.error e := by
  obtain ⟨e, he⟩ := fetch_nanogpt_models_error outcome h
  exact ⟨by simp [fetchDynamicModelsStep, he], by simp [fetchDynamicModelsStep, he],
    e, by simp [fetchDynamicModelsStep, he]⟩

/-- C4, witness at a populated state and a transport failure. -/
theorem stage1_failure_preserves_snapshot_witness :
    (fetchDynamicModelsStep cPopulatedState FetchOutcome.transportError).1 =
      cPopulatedState ∧
    (fetchDynamicModelsStep cPopulatedState FetchOutcome.transportError).1.dynamicModels =
      cPopulatedState.dynamicModels ∧
    ∃ e, (fetchDynamicModelsStep cPopulatedState FetchOutcome.transportError).2 =
      Except.error e :=
  stage1_failure_preserves_snapshot cPopulatedState .transportError rfl

/-- C5: for every discovered catalog record the resolved max_tokens equals
the max-input-tokens of the record when present and strictly positive and
200000 otherwise, and the resolved max_output_tokens equals the
max-output-tokens of the record when present and strictly positive, is
absent otherwise, and is never zero. -/
theorem token_limits_resolution (key : String) (record : NanogptCatalogModel) :
    (buildNanogptModel key record).max_tokens =
      (match record.max_input_tokens with
        | some value => if 0 < value then value else 200000
        | none => 200000) ∧
    (buildNanogptModel key record).max_output_tokens =
      (match record.max_output_tokens with
        | some value => if 0 < value then some value else none
        | none => none) ∧
    (buildNanogptModel key record).max_output_tokens ≠ some 0 := by
  refine ⟨?_, ?_, ?_⟩
  · simp only [buildNanogptModel]
    cases hmi : record.max_input_tokens with
    | none => simp [Option.filter, NANOGPT_DEFAULT_MAX_INPUT_TOKENS]
    | some value =>
      by_cases h : 0 < value
      · simp [Option.filter, h]
      · simp [Option.filter, h, NANOGPT_DEFAULT_MAX_INPUT_TOKENS]
  · simp only [buildNanogptModel]
    cases hmo : record.max_output_tokens with
    | none => simp [Option.filter]
    | some value =>
      by_cases h : 0 < value
      · simp [Option.filter, h]
      · simp [Option.filter, h]
  · simp only [buildNanogptModel]
    cases hmo : record.max_output_tokens with
    | none => simp [Option.filter]
    | some value =>
      by_cases h : 0 < value
      · simp [Option.filter, h]
        omega
      · simp [Option.filter, h]

/-- C6: the Stage-1 output is a permutation of the built records in which
the entry whose upstream identifier equals the designated default
identifier comes first and all other entries ascend case-sensitively by
display name, falling back to the upstream identifier. -/
theorem stage1_output_sorted (response : NanogptModelsResponse) :
    (nanogptModelsOfResponse response).Perm
      (buildNanogptModels response.models.text) ∧
    (nanogptModelsOfResponse response).Pairwise claimCatalogOrder ∧
    ∀ m ∈ nanogptModelsOfResponse response,
      m.request_model = NANOGPT_DEFAULT_MODEL_ID →
      ∀ hd, (nanogptModelsOfResponse response).head? = some hd →
        hd.request_model = NANOGPT_DEFAULT_MODEL_ID := by
  have hperm : (nanogptModelsOfResponse response).Perm
      (buildNanogptModels response.models.text) :=
    perm_stableSort nanogptModelLe _
  have hpair : (nanogptModelsOfResponse response).Pairwise claimCatalogOrder := by
    have h0 := pairwise_stableSort nanogptModelLe nanogptModelLe_total
      nanogptModelLe_trans (buildNanogptModels response.models.text)
    exact h0.imp fun hab => (nanogptModelLe_iff _ _).mp hab
  refine ⟨hperm, hpair, ?_⟩
  intro m hm hdef hd hhd
  cases hout : nanogptModelsOfResponse response with
  | nil =>
    rw [hout] at hhd
    exact absurd hhd (by simp)
  | cons h t =>
    rw [hout] at hhd hm hpair
    have hdh : h = hd := by simpa using hhd
    rcases List.mem_cons.mp hm with hmh | hmt
    · rw [← hdh]
      exact hmh ▸ hdef
    · rw [List.pairwise_cons] at hpair
      rcases hpair.1 m hmt with hcase | hcase
      · rw [← hdh]
        exact hcase
      · exact absurd hdef hcase.1

/-- C6, witness at the specification example: default entry first, then
Alpha, then Zed. -/
theorem stage1_output_sorted_witness :
    (nanogptModelsOfResponse c6Response).Pairwise claimCatalogOrder ∧
    (nanogptModelsOfResponse c6Response).map (fun m => m.request_model) =
      ["minimax/minimax-m2.5", "a", "z"] :=
  ⟨(stage1_output_sorted c6Response).2.1, by decide⟩

/-- C7: a completion dispatch issued while no API key resolves for the
current base URL short-circuits to the typed NoApiKey error carrying the
provider name; no HttpDispatch describing an upstream request is produced. -/
theorem no_api_key_short_circuits (st : State) (model : ResolvedModel)
    (provider_name : String) (h : st.apiKey = none) :
    streamCompletionDispatch st model provider_name =
      Except.error (CompletionError.noApiKey provider_name) := by
  simp [streamCompletionDispatch, h]

/-- C7, witness at a keyless state. -/
theorem no_api_key_short_circuits_witness :
    streamCompletionDispatch cNoKeyState (mkBaseResolved "model-one") "nanogpt" =
      Except.error (CompletionError.noApiKey "nanogpt") :=
  no_api_key_short_circuits cNoKeyState (mkBaseResolved "model-one") "nanogpt" rfl

/-- C8: in a Stage-2 run, a model whose routing-options fetch fails
contributes exactly its base entry with zero variants, the blocks of every
other model are unaffected, and the run still completes and publishes. -/
theorem stage2_per_model_failure_degrades (st : State)
    (before after : List (ResolvedModel × FetchOutcome NanogptProvidersResponse))
    (model : ResolvedModel) (failed : FetchOutcome NanogptProvidersResponse)
    (e : String)
    (hfail : fetch_nanogpt_model_providers failed = Except.error e) :
    (fetchProviderSelectionStep st (before ++ (model, failed) :: after)).2 =
      Except.ok () ∧
    (fetchProviderSelectionStep st (before ++ (model, failed) :: after)).1.dynamicModels =
      expandProviderOptions
          (before.map fun pair => (pair.1, providerOptionsOrEmpty pair.2)) ++
        model :: expandProviderOptions
          (after.map fun pair => (pair.1, providerOptionsOrEmpty pair.2)) := by
  refine ⟨rfl, ?_⟩
  show expandProviderOptions
      ((before ++ (model, failed) :: after).map fun pair =>
        (pair.1, providerOptionsOrEmpty pair.2)) = _
  rw [List.map_append, List.map_cons]
  simp only [expandProviderOptions, List.flatMap_append, List.flatMap_cons]
  have hempty : providerOptionsOrEmpty failed = [] := by
    simp [providerOptionsOrEmpty, hfail]
  rw [hempty]
  simp

/-- C8, witness: the model in the middle fails by transport error, the two
models around it keep their routing variants. -/
theorem stage2_per_model_failure_witness :
    (fetchProviderSelectionStep cBaseState
        (c8Before ++ (mkBaseResolved "model-two", FetchOutcome.transportError) ::
          c8After)).2 = Except.ok () ∧
    (fetchProviderSelectionStep cBaseState
        (c8Before ++ (mkBaseResolved "model-two", FetchOutcome.transportError) ::
          c8After)).1.dynamicModels =
      expandProviderOptions
          (c8Before.map fun pair => (pair.1, providerOptionsOrEmpty pair.2)) ++
        mkBaseResolved "model-two" :: expandProviderOptions
          (c8After.map fun pair => (pair.1, providerOptionsOrEmpty pair.2)) :=
  stage2_per_model_failure_degrades cBaseState c8Before c8After
    (mkBaseResolved "model-two") .transportError "transport failure" rfl

/-- C9: through the per-handle rate limiter (created with 4 slots in
create_language_model), at most 4 dispatches are ever active at once in any
run from the idle state, and a dispatch arriving while 4 are active joins
the queue instead of failing, leaving the active count at 4. -/
theorem rate_limiter_bounds_inflight (events : List RateLimiterEvent)
    (s : RateLimiterState) (h : s.active = requestLimiterSlots) :
    (rateLimiterRun events).active ≤ requestLimiterSlots ∧
    (rateLimiterStep s RateLimiterEvent.dispatch).active = s.active ∧
    (rateLimiterStep s RateLimiterEvent.dispatch).queued = s.queued + 1 := by
  have hlt : ¬ s.active < requestLimiterSlots := by
    rw [h]
    exact Nat.lt_irrefl _
  refine ⟨limiter_foldl_bound events _ (Nat.zero_le _), ?_, ?_⟩ <;>
    simp [rateLimiterStep, hlt]

/-- C9, witness: a burst of five dispatches against a full limiter. -/
theorem rate_limiter_bounds_witness :
    (rateLimiterRun [RateLimiterEvent.dispatch, RateLimiterEvent.dispatch,
        RateLimiterEvent.dispatch, RateLimiterEvent.dispatch,
        RateLimiterEvent.dispatch]).active ≤ requestLimiterSlots ∧
    (rateLimiterStep { active := 4, queued := 0 } RateLimiterEvent.dispatch).active =
      ({ active := 4, queued := 0 } : RateLimiterState).active ∧
    (rateLimiterStep { active := 4, queued := 0 } RateLimiterEvent.dispatch).queued =
      ({ active := 4, queued := 0 } : RateLimiterState).queued + 1 :=
  rate_limiter_bounds_inflight _ _ rfl

/-- C10: both discovery URIs are built from the normalized base (trailing
slashes trimmed, then a trailing /v1 removed), so a base URL configured with
a /v1 suffix, with a trailing slash, or bare, yields identical Stage-1 and
Stage-2 request URIs. -/
theorem discovery_uris_base_normalized (u : String)
    (h1 : u.data.getLast? ≠ some '/')
    (h2 : List.isSuffixOf "/v1".data u.data = false) :
    nanogptModelsUri (u ++ "/v1") = nanogptModelsUri u ∧
    nanogptModelsUri (u ++ "/") = nanogptModelsUri u ∧
    ∀ model_id,
      nanogptModelProvidersUri (u ++ "/v1") model_id =
        nanogptModelProvidersUri u model_id ∧
      nanogptModelProvidersUri (u ++ "/") model_id =
        nanogptModelProvidersUri u model_id := by
  have hv1 := base_url_append_v1 u
  have hsl := base_url_append_slash u h1 h2
  have hpl := base_url_of_plain u h1 h2
  refine ⟨?_, ?_, ?_⟩
  · unfold nanogptModelsUri
    rw [hv1, hpl]
  · unfold nanogptModelsUri
    rw [hsl, hpl]
  · intro model_id
    constructor
    · unfold nanogptModelProvidersUri
      rw [hv1, hpl]
    · unfold nanogptModelProvidersUri
      rw [hsl, hpl]

/-- C10, witness at a concrete host. -/
theorem discovery_uris_base_normalized_witness :
    nanogptModelsUri ("https://host" ++ "/v1") = nanogptModelsUri "https://host" ∧
    nanogptModelsUri ("https://host" ++ "/") = nanogptModelsUri "https://host" ∧
    nanogptModelProvidersUri ("https://host" ++ "/v1") "model a" =
      nanogptModelProvidersUri "https://host" "model a" := by
  have h := discovery_uris_base_normalized "https://host" (by decide) (by decide)
  exact ⟨h.1, h.2.1, (h.2.2 "model a").1⟩

end NanoZed
